import Mathlib

/-!
Shallow embedding of the rust-paper synchronization engine
(`src/lib.rs`, `src/helper.rs`, `src/lock.rs`) in Lean 4, together with
theorems settling the specification claims about it.

Rust strings (`&str` / `String`) are modelled as lists of Unicode scalar
values (`List Char`); Rust `str::len` (a UTF-8 byte count) is modelled by
`strByteLen`, which sums the UTF-8 encoded width of each scalar value.
-/

namespace RustPaper

/-- A Rust string slice, modelled as its sequence of Unicode scalar values. -/
abbrev Str := List Char

/-- UTF-8 encoded byte width of one Unicode scalar value. -/
def charUtf8Len (c : Char) : Nat :=
  if c.toNat ≤ 0x7F then 1
  else if c.toNat ≤ 0x7FF then 2
  else if c.toNat ≤ 0xFFFF then 3
  else 4

/-- Rust `str::len`: the number of bytes in the UTF-8 encoding. -/
def strByteLen (s : Str) : Nat :=
  (s.map charUtf8Len).sum

/-- Rust `char::is_ascii_alphanumeric`: matches `0..=9`, `A..=Z`, `a..=z`. -/
def isAsciiAlphanumeric (c : Char) : Bool :=
  (48 ≤ c.toNat && c.toNat ≤ 57) ||
  (65 ≤ c.toNat && c.toNat ≤ 90) ||
  (97 ≤ c.toNat && c.toNat ≤ 122)

/-- Rust `helper::validate_wallpaper_id`: `id.len() == 6 &&
id.chars().all(|c| c.is_ascii_alphanumeric())`. -/
def validate_wallpaper_id (id : Str) : Bool :=
  strByteLen id == 6 && id.all isAsciiAlphanumeric

/-- The regular expression `[A-Za-z0-9]{6}` from the spec, as a predicate
on strings: exactly six characters, each an ASCII letter or digit. -/
def matchesIdPattern (s : Str) : Prop :=
  s.length = 6 ∧
    ∀ c ∈ s, (( 'A' ≤ c ∧ c ≤ 'Z' ) ∨ ( 'a' ≤ c ∧ c ≤ 'z' ) ∨ ( '0' ≤ c ∧ c ≤ '9' ))

/-! ### Rust string splitting, trimming and token normalization -/

/-- Auxiliary for `splitChar`: accumulates the current segment (reversed). -/
def splitCharAux (sep : Char) : Str → Str → List Str
  | [], acc => [acc.reverse]
  | c :: cs, acc =>
    if c = sep then acc.reverse :: splitCharAux sep cs []
    else splitCharAux sep cs (c :: acc)

/-- Rust `str::split(sep)`, collected into a list of segments (an empty
input yields one empty segment, and separators at the ends yield empty
segments, as in Rust). -/
def splitChar (sep : Char) (s : Str) : List Str :=
  splitCharAux sep s []

/-- Rust `char::is_whitespace` (the Unicode `White_Space` property). -/
def isRustWhitespace (c : Char) : Bool :=
  (9 ≤ c.toNat && c.toNat ≤ 13) || c.toNat == 32 || c.toNat == 0x85 ||
  c.toNat == 0xA0 || c.toNat == 0x1680 ||
  (0x2000 ≤ c.toNat && c.toNat ≤ 0x200A) ||
  c.toNat == 0x2028 || c.toNat == 0x2029 || c.toNat == 0x202F ||
  c.toNat == 0x205F || c.toNat == 0x3000

/-- Rust `str::trim`: strips leading and trailing whitespace. -/
def trimStr (s : Str) : Str :=
  ((s.dropWhile isRustWhitespace).reverse.dropWhile isRustWhitespace).reverse

/-- Rust `helper::to_array`: split on commas, trim each piece, drop empties. -/
def to_array (s : Str) : List Str :=
  ((splitChar ',' s).map trimStr).filter (fun p => !p.isEmpty)

/-- The URL-to-ID extraction used by `add`, `remove` and `info`:
`split('/').last()` then `split('?').next()` (each `unwrap_or_default`). -/
def extract_id_from_url (s : Str) : Str :=
  (splitChar '?' ((splitChar '/' s).getLastD [])).headD []

/-- Token normalization step shared by `add` and `remove`: URLs are reduced
to their last path segment with any query string stripped; other tokens
pass through. `is_url` (the `url` crate's `Url::parse(..).is_ok()`) is an
external collaborator and is taken as a parameter. -/
def normalize_token (is_url : Str → Bool) (w : Str) : Str :=
  if is_url w then extract_id_from_url w else w

/-! Valid IDs pass through normalization, comma-splitting and trimming
unchanged: a six-character alphanumeric token contains no separator
characters and no whitespace. -/

/-! ### `Vec::sort_unstable` + `Vec::dedup`

`Vec::dedup` removes *consecutive* duplicates; after a sort under a total
order it yields the strictly sorted list of distinct elements. Because the
order on strings is linear (antisymmetric), the sorted permutation of a
list is unique, so Rust's unstable pattern-defeating quicksort is modelled
by insertion sort. -/

/-- Rust `Vec::dedup`: drop elements equal to their immediate predecessor. -/
def dedupConsecutive {α : Type} [LinearOrder α] : List α → List α
  | [] => []
  | [a] => [a]
  | a :: b :: l =>
    if a = b then dedupConsecutive (b :: l) else a :: dedupConsecutive (b :: l)

/-- Rust `v.sort_unstable(); v.dedup();` in sequence. -/
def sortAndDedup {α : Type} [LinearOrder α] (l : List α) : List α :=
  dedupConsecutive (l.insertionSort (· ≤ ·))

/-! ### List Store: `RustPaper::add` / `RustPaper::remove`

The tracked-ID list and its backing file `wallpapers.lst`
(`update_wallpaper_list` writes one ID per line, truncate-and-rewrite).
File-system write errors are outside the model. -/

/-- In-memory tracked list plus the lines of the backing list file. -/
structure ListStoreState where
  wallpapers : List Str
  listFile : List Str
deriving DecidableEq

/-- Token pipeline shared by `add` and `remove`: URL extraction, then
comma-splitting with trimming, then dropping every token that fails
`validate_wallpaper_id` (with a warning in the source, never an error). -/
def processTokens (is_url : Str → Bool) (tokens : List Str) : List Str :=
  ((tokens.map (normalize_token is_url)).flatMap to_array).filter validate_wallpaper_id

/-- Rust `RustPaper::add`: normalize and validate the inputs, extend the list,
`sort_unstable`, `dedup`, rewrite the backing file with the result. -/
def add (is_url : Str → Bool) (st : ListStoreState) (new_wallpapers : List Str) :
    ListStoreState :=
  let valid_wallpapers := processTokens is_url new_wallpapers
  let ws := sortAndDedup (st.wallpapers ++ valid_wallpapers)
  ⟨ws, ws⟩

/-- Rust `RustPaper::remove`: normalize and validate the inputs; error if no
valid ID remains; retain non-matching entries; rewrite the backing file
only when the list actually shrank. -/
def remove (is_url : Str → Bool) (st : ListStoreState) (ids_to_remove : List Str) :
    Except String ListStoreState :=
  let ids := processTokens is_url ids_to_remove
  if ids.isEmpty then Except.error "No valid wallpaper IDs provided"
  else
    let newList := st.wallpapers.filter (fun w => !(ids.contains w))
    let removed_count := st.wallpapers.length - newList.length
    if removed_count = 0 then Except.ok ⟨newList, st.listFile⟩
    else Except.ok ⟨newList, newList⟩

/-! ### Reconciliation planning inside `RustPaper::sync`

`sync` first builds `file_map` (directory inventory: ID → path) and, when
integrity is enabled, `lock_file_map` (ledger: ID → (recorded path,
recorded sha256)). The planning loop classifies each tracked ID. Paths
are modelled as strings (`existing_path.to_string_lossy()` is the identity
on valid-unicode paths, which is how the comparison is made in the code). -/

/-- The action `sync` plans for one tracked ID (derived, not persisted). -/
inductive SyncAction
  | download
  | skip
  | verify
deriving DecidableEq

/-- The body of the planning loop of `RustPaper::sync` for one tracked ID. -/
def classify (integrity : Bool) (lock_file_map : Option (Str → Option (Str × Str)))
    (file_map : Str → Option Str) (wallpaper : Str) : SyncAction :=
  match file_map wallpaper with
  | some existing_path =>
    if integrity then
      match lock_file_map with
      | some lock_map =>
        match lock_map wallpaper with
        | some (lock_location, _expected_sha256) =>
          if lock_location = existing_path then SyncAction.verify else SyncAction.download
        | none => SyncAction.download
      | none => SyncAction.download
    else SyncAction.skip
  | none => SyncAction.download

/-- The planning loop itself: fold `classify` over the tracked list,
accumulating `needs_download` and `integrity_checks`
(ID, path, expected hash) in order. -/
def reconcile (integrity : Bool) (lock_file_map : Option (Str → Option (Str × Str)))
    (file_map : Str → Option Str) (wallpapers : List Str) :
    List Str × List (Str × Str × Str) :=
  wallpapers.foldl
    (fun acc wallpaper =>
      match classify integrity lock_file_map file_map wallpaper with
      | SyncAction.download => (acc.1 ++ [wallpaper], acc.2)
      | SyncAction.skip => acc
      | SyncAction.verify =>
        ((acc.1, acc.2 ++ [(wallpaper, (file_map wallpaper).getD [],
          (((lock_file_map.getD (fun _ => none)) wallpaper).getD ([], [])).2)])))
    ([], [])

/-- Inventory, ledger and tracked ID used to instantiate `classify_spec_rules`. -/
def exFileMap : Str → Option Str :=
  fun w => if w = "abc123".data then some "/save/abc123.png".data else none

/-! ### Verify phase of `RustPaper::sync`

Each `integrity_checks` entry `(id, path, expected_sha256)` spawns a task
that recomputes the file hash (`helper::calculate_sha256`) and reports
`(id, should_download)`; the collection loop pushes `id` onto
`needs_download` exactly when `should_download` is true. The hash
computation's outcome is a parameter (it is file I/O). -/

/-- Body of one verify task: download on mismatch or on any hashing error. -/
def verify_should_download (expected_hash : Str) (hash_result : Except String Str) : Bool :=
  match hash_result with
  | Except.ok actual_sha256 => actual_sha256 != expected_hash
  | Except.error _ => true

/-- IDs the verify phase promotes to the download set. -/
def verify_phase_downloads (calculate_sha256 : Str → Except String Str)
    (integrity_checks : List (Str × Str × Str)) : List Str :=
  (integrity_checks.filter
    (fun c => verify_should_download c.2.2 (calculate_sha256 c.2.1))).map (fun c => c.1)

/-! ### Download phase of `RustPaper::sync`

One task per ID needing download; the collection loop increments
`completed` on *every* finished task and `errors` on each task that
returned `Err` or panicked, then prints
`Completed <completed> of <total> with <errors> error(s)` when any error
occurred, and `sync` returns `Ok(())` regardless. -/

/-- Outcome of one spawned download task, as seen by the collection loop:
`Ok(Ok(()))`, `Ok(Err(e))`, or a join/panic error. -/
inductive TaskResult
  | success
  | taskError (msg : String)
  | panicked (msg : String)
deriving DecidableEq

/-- Holds (`true`) only for `Ok(Ok(()))`. -/
def TaskResult.isSuccess : TaskResult → Bool
  | TaskResult.success => true
  | _ => false

/-- The collection loop over task results: `completed` counts every
finished task, `errors` counts the failed ones. -/
def count_outcomes (results : List TaskResult) : Nat × Nat :=
  results.foldl
    (fun acc r =>
      (acc.1 + 1,
        match r with
        | TaskResult.success => acc.2
        | TaskResult.taskError _ => acc.2 + 1
        | TaskResult.panicked _ => acc.2 + 1))
    (0, 0)

/-- The download phase: returns the `(completed, errors, total)` summary,
the IDs whose download task succeeded, and `sync`'s return value (always
`Ok(())` — per-item failures never abort the run). -/
def download_phase (outcome : Str → TaskResult) (needs_download : List Str) :
    (Nat × Nat × Nat) × List Str × Except String Unit :=
  let results := needs_download.map outcome
  let counts := count_outcomes results
  ((counts.1, counts.2, needs_download.length),
    needs_download.filter (fun w => (outcome w).isSuccess),
    Except.ok ())

/-- Download-task outcomes for the three-item batch: the second item's
network fetch fails permanently, the others succeed. -/
def exOutcome : Str → TaskResult :=
  fun w => if w = "bbbbbb".data then TaskResult.taskError "network fetch failed"
           else TaskResult.success

/-- The three-item batch of the claim's scenario. -/
def exBatch : List Str := ["aaaaaa".data, "bbbbbb".data, "cccccc".data]

/-! ### `retry_get_curl_content`: bounded retry with exponential backoff

`for retry_count in 0..MAX_RETRY` around `helper::get_curl_content`; the
network outcome of attempt `i` is a parameter. The model returns the
loop's result together with the total backoff delay in seconds, and uses
`none` for the `unreachable!()` after the loop (reached only if the loop
were exhausted without returning). The loop's remaining iteration count
(`maxRetry - retry_count`) is carried explicitly as structural fuel. -/

/-- Rust `const MAX_RETRY: u32 = 3`. -/
def MAX_RETRY : Nat := 3

/-- The retry loop. `retry_count` is the current attempt index, `acc` the
backoff delay in seconds slept so far; the last argument is the number of
loop iterations left. `none` models falling through to `unreachable!()`. -/
def retryLoop (get_curl_content : Nat → Except String String) (maxRetry : Nat) :
    Nat → Nat → Nat → Option (Except String String) × Nat
  | _, acc, 0 => (none, acc)
  | retry_count, acc, fuel + 1 =>
    match get_curl_content retry_count with
    | Except.ok content => (some (Except.ok content), acc)
    | Except.error e =>
      if retry_count + 1 < maxRetry then
        retryLoop get_curl_content maxRetry (retry_count + 1) (acc + 2 ^ retry_count) fuel
      else (some (Except.error e), acc)

/-- Rust `retry_get_curl_content`: run the loop from attempt 0 with no delay. -/
def retry_get_curl_content (attempts : Nat → Except String String) :
    Option (Except String String) × Nat :=
  retryLoop attempts MAX_RETRY 0 0 MAX_RETRY

/-! ### `helper::download_image` and extension selection (C9)

`download_image` fetches the image bytes, decodes them
(`image::load_from_memory`), detects the format (`image::guess_format`),
and saves the file as `<save_location>/<id>.<ext>`. The network fetch, the
decode outcome and the detection outcome are parameters (they depend on
the remote bytes); `?`-propagation of their failures is modelled exactly. -/

/-- The `image::ImageFormat` variants (the `image` crate's enum; the last
four are the variants the extension table does not list). -/
inductive ImageFormat
  | Png | Jpeg | Gif | WebP | Pnm | Tiff | Tga | Dds | Bmp | Ico | Hdr
  | OpenExr | Farbfeld | Avif | Qoi
deriving DecidableEq

/-- Rust `helper::get_img_extension`: the extension table, with `"jpg"` as the
fallback for formats the table does not list. -/
def get_img_extension (format : ImageFormat) : Str :=
  match format with
  | ImageFormat.Png => "png".data
  | ImageFormat.Jpeg => "jpeg".data
  | ImageFormat.Gif => "gif".data
  | ImageFormat.WebP => "webp".data
  | ImageFormat.Pnm => "pnm".data
  | ImageFormat.Tiff => "tiff".data
  | ImageFormat.Tga => "tga".data
  | ImageFormat.Dds => "dds".data
  | ImageFormat.Bmp => "bmp".data
  | ImageFormat.Ico => "ico".data
  | ImageFormat.Hdr => "hdr".data
  | _ => "jpg".data

/-- Rust `helper::download_image`: propagate fetch failure; fail if the bytes
do not decode (`Failed to decode image`); fail if the format is not
detected (`Failed to detect image format`); otherwise save the file as
`<save_location>/<id>.<ext>` and return that path. -/
def download_image (fetch : Except String Unit) (decoded : Bool)
    (guess_format : Option ImageFormat) (save_ok : Bool)
    (id save_location : Str) : Except String Str :=
  match fetch with
  | Except.error e => Except.error e
  | Except.ok () =>
    if !decoded then Except.error "Failed to decode image"
    else
      match guess_format with
      | none => Except.error "Failed to detect image format"
      | some img_format =>
        let image_name := save_location ++ ('/' :: id) ++ ('.' :: get_img_extension img_format)
        if save_ok then Except.ok image_name else Except.error "Failed to save image"

/-! ### Theorems -/

theorem isAsciiAlphanumeric_iff (c : Char) :
    isAsciiAlphanumeric c = true ↔
      (( 'A' ≤ c ∧ c ≤ 'Z' ) ∨ ( 'a' ≤ c ∧ c ≤ 'z' ) ∨ ( '0' ≤ c ∧ c ≤ '9' )) := by
  have hA : ( 'A' ≤ c ) ↔ 65 ≤ c.toNat := Iff.rfl
  have hZ : ( c ≤ 'Z' ) ↔ c.toNat ≤ 90 := Iff.rfl
  have ha : ( 'a' ≤ c ) ↔ 97 ≤ c.toNat := Iff.rfl
  have hz : ( c ≤ 'z' ) ↔ c.toNat ≤ 122 := Iff.rfl
  have h0 : ( '0' ≤ c ) ↔ 48 ≤ c.toNat := Iff.rfl
  have h9 : ( c ≤ '9' ) ↔ c.toNat ≤ 57 := Iff.rfl
  rw [hA, hZ, ha, hz, h0, h9]
  simp only [isAsciiAlphanumeric, Bool.or_eq_true, Bool.and_eq_true, decide_eq_true_eq]
  omega

theorem charUtf8Len_of_alnum {c : Char} (h : isAsciiAlphanumeric c = true) :
    charUtf8Len c = 1 := by
  simp only [isAsciiAlphanumeric, Bool.or_eq_true, Bool.and_eq_true, decide_eq_true_eq] at h
  unfold charUtf8Len
  rw [if_pos]
  omega

theorem strByteLen_of_all_alnum {s : Str} (h : ∀ c ∈ s, isAsciiAlphanumeric c = true) :
    strByteLen s = s.length := by
  induction s with
  | nil => rfl
  | cons c cs ih =>
    have hc := charUtf8Len_of_alnum (h c (List.mem_cons_self c cs))
    have := ih (fun x hx => h x (List.mem_cons_of_mem c hx))
    simp only [strByteLen, List.map_cons, List.sum_cons, List.length_cons] at *
    omega

/-- C5: ID validation accepts a string if and only if it matches
`[A-Za-z0-9]{6}`: `validate_wallpaper_id` returns `true` exactly on strings
of six ASCII alphanumeric characters, and rejects every other string. -/
theorem validate_wallpaper_id_iff_matchesIdPattern (s : Str) :
    validate_wallpaper_id s = true ↔ matchesIdPattern s := by
  unfold validate_wallpaper_id matchesIdPattern
  rw [Bool.and_eq_true, List.all_eq_true, beq_iff_eq]
  constructor
  · rintro ⟨hlen, hall⟩
    have hall' : ∀ c ∈ s, isAsciiAlphanumeric c = true := fun c hc => hall c hc
    refine ⟨?_, fun c hc => (isAsciiAlphanumeric_iff c).mp (hall' c hc)⟩
    rw [strByteLen_of_all_alnum hall'] at hlen
    exact hlen
  · rintro ⟨hlen, hall⟩
    have hall' : ∀ c ∈ s, isAsciiAlphanumeric c = true :=
      fun c hc => (isAsciiAlphanumeric_iff c).mpr (hall c hc)
    exact ⟨by rw [strByteLen_of_all_alnum hall', hlen], fun c hc => hall' c hc⟩

theorem alnum_not_special {c : Char} (h : isAsciiAlphanumeric c = true) :
    c ≠ '/' ∧ c ≠ '?' ∧ c ≠ ',' ∧ isRustWhitespace c = false := by
  simp only [isAsciiAlphanumeric, Bool.or_eq_true, Bool.and_eq_true, decide_eq_true_eq] at h
  refine ⟨?_, ?_, ?_, ?_⟩
  · intro hc; subst hc; simp at h
  · intro hc; subst hc; simp at h
  · intro hc; subst hc; simp at h
  · simp only [isRustWhitespace, Bool.or_eq_false_iff, Bool.and_eq_false_iff,
      beq_eq_false_iff_ne, ne_eq, decide_eq_false_iff_not, not_le]
    omega

theorem splitCharAux_of_no_sep {sep : Char} :
    ∀ (s : Str) (acc : Str), (∀ c ∈ s, c ≠ sep) →
      splitCharAux sep s acc = [acc.reverse ++ s]
  | [], acc, _ => by simp [splitCharAux]
  | c :: cs, acc, h => by
    have hc : c ≠ sep := h c (List.mem_cons_self c cs)
    have ih := splitCharAux_of_no_sep cs (c :: acc)
      (fun x hx => h x (List.mem_cons_of_mem c hx))
    simp only [splitCharAux, if_neg hc, ih, List.reverse_cons, List.append_assoc,
      List.cons_append, List.nil_append]

theorem splitChar_of_no_sep {sep : Char} {s : Str} (h : ∀ c ∈ s, c ≠ sep) :
    splitChar sep s = [s] := by
  simp [splitChar, splitCharAux_of_no_sep s [] h]

theorem dropWhile_of_not_head {p : Char → Bool} :
    ∀ s : Str, (∀ c ∈ s, p c = false) → s.dropWhile p = s
  | [], _ => rfl
  | c :: cs, h => by
    simp [List.dropWhile, h c (List.mem_cons_self c cs)]

theorem trimStr_of_no_whitespace {s : Str}
    (h : ∀ c ∈ s, isRustWhitespace c = false) : trimStr s = s := by
  unfold trimStr
  rw [dropWhile_of_not_head s h,
    dropWhile_of_not_head s.reverse (fun c hc => h c (List.mem_reverse.mp hc)),
    List.reverse_reverse]

theorem valid_id_chars {id : Str} (h : validate_wallpaper_id id = true) :
    ∀ c ∈ id, isAsciiAlphanumeric c = true := by
  unfold validate_wallpaper_id at h
  rw [Bool.and_eq_true, List.all_eq_true] at h
  exact fun c hc => h.2 c hc

theorem valid_id_ne_nil {id : Str} (h : validate_wallpaper_id id = true) :
    id ≠ [] := by
  intro hnil
  subst hnil
  simp [validate_wallpaper_id, strByteLen] at h

theorem to_array_of_valid_id {id : Str} (h : validate_wallpaper_id id = true) :
    to_array id = [id] := by
  have hchars := valid_id_chars h
  have hcomma : ∀ c ∈ id, c ≠ ',' := fun c hc => (alnum_not_special (hchars c hc)).2.2.1
  have hws : ∀ c ∈ id, isRustWhitespace c = false :=
    fun c hc => (alnum_not_special (hchars c hc)).2.2.2
  unfold to_array
  rw [splitChar_of_no_sep hcomma]
  simp [trimStr_of_no_whitespace hws, List.isEmpty_iff, valid_id_ne_nil h]

theorem extract_id_from_url_of_valid_id {id : Str}
    (h : validate_wallpaper_id id = true) : extract_id_from_url id = id := by
  have hchars := valid_id_chars h
  have hslash : ∀ c ∈ id, c ≠ '/' := fun c hc => (alnum_not_special (hchars c hc)).1
  have hq : ∀ c ∈ id, c ≠ '?' := fun c hc => (alnum_not_special (hchars c hc)).2.1
  unfold extract_id_from_url
  rw [splitChar_of_no_sep hslash]
  have hlast : ([id] : List Str).getLastD [] = id := rfl
  rw [hlast, splitChar_of_no_sep hq]
  rfl

theorem normalize_token_of_valid_id (is_url : Str → Bool) {id : Str}
    (h : validate_wallpaper_id id = true) : normalize_token is_url id = id := by
  unfold normalize_token
  by_cases hu : is_url id = true
  · rw [if_pos hu, extract_id_from_url_of_valid_id h]
  · rw [if_neg hu]

theorem mem_dedupConsecutive {α : Type} [LinearOrder α] {x : α} :
    ∀ {l : List α}, x ∈ dedupConsecutive l ↔ x ∈ l
  | [] => Iff.rfl
  | [a] => Iff.rfl
  | a :: b :: l => by
    by_cases h : a = b
    · subst h
      rw [dedupConsecutive, if_pos rfl]
      rw [mem_dedupConsecutive (l := a :: l)]
      simp
    · rw [dedupConsecutive, if_neg h, List.mem_cons, List.mem_cons,
        mem_dedupConsecutive (l := b :: l), List.mem_cons]

theorem sorted_lt_dedupConsecutive {α : Type} [LinearOrder α] :
    ∀ {l : List α}, l.Sorted (· ≤ ·) → (dedupConsecutive l).Sorted (· < ·)
  | [], _ => List.sorted_nil
  | [a], _ => List.sorted_singleton a
  | a :: b :: l, h => by
    have htail : (b :: l).Sorted (· ≤ ·) := h.of_cons
    by_cases hab : a = b
    · rw [dedupConsecutive, if_pos hab]
      exact sorted_lt_dedupConsecutive htail
    · rw [dedupConsecutive, if_neg hab]
      rw [List.sorted_cons]
      refine ⟨?_, sorted_lt_dedupConsecutive htail⟩
      intro x hx
      have hxmem : x ∈ b :: l := mem_dedupConsecutive.mp hx
      have hab' : a < b := lt_of_le_of_ne (List.rel_of_sorted_cons h b (List.mem_cons_self b l)) hab
      rcases List.mem_cons.mp hxmem with hxb | hxl
      · exact hxb ▸ hab'
      · exact lt_of_lt_of_le hab' (List.rel_of_sorted_cons htail x hxl)

/-- Two strictly sorted lists with the same elements are equal. -/
theorem eq_of_sorted_lt_of_mem_iff {α : Type} [LinearOrder α] :
    ∀ (l₁ l₂ : List α), l₁.Sorted (· < ·) → l₂.Sorted (· < ·) →
      (∀ x, x ∈ l₁ ↔ x ∈ l₂) → l₁ = l₂
  | [], [], _, _, _ => rfl
  | [], b :: l₂, _, _, hmem => by
    exact absurd ((hmem b).mpr (List.mem_cons_self b l₂)) (List.not_mem_nil b)
  | a :: l₁, [], _, _, hmem => by
    exact absurd ((hmem a).mp (List.mem_cons_self a l₁)) (List.not_mem_nil a)
  | a :: l₁, b :: l₂, h₁, h₂, hmem => by
    have hab : a = b := by
      rcases List.mem_cons.mp ((hmem a).mp (List.mem_cons_self a l₁)) with h | h
      · exact h
      · rcases List.mem_cons.mp ((hmem b).mpr (List.mem_cons_self b l₂)) with h' | h'
        · exact h'.symm
        · exact absurd (lt_trans (List.rel_of_sorted_cons h₂ a h)
            (List.rel_of_sorted_cons h₁ b h')) (lt_irrefl b)
    subst hab
    have htails : ∀ x, x ∈ l₁ ↔ x ∈ l₂ := by
      intro x
      constructor
      · intro hx
        rcases List.mem_cons.mp ((hmem x).mp (List.mem_cons_of_mem a hx)) with h | h
        · exact absurd (h ▸ List.rel_of_sorted_cons h₁ x hx) (lt_irrefl x)
        · exact h
      · intro hx
        rcases List.mem_cons.mp ((hmem x).mpr (List.mem_cons_of_mem a hx)) with h | h
        · exact absurd (h ▸ List.rel_of_sorted_cons h₂ x hx) (lt_irrefl x)
        · exact h
    rw [eq_of_sorted_lt_of_mem_iff l₁ l₂ h₁.of_cons h₂.of_cons htails]

theorem mem_sortAndDedup {α : Type} [LinearOrder α] {x : α} {l : List α} :
    x ∈ sortAndDedup l ↔ x ∈ l := by
  unfold sortAndDedup
  rw [mem_dedupConsecutive, List.mem_insertionSort]

theorem sorted_lt_sortAndDedup {α : Type} [LinearOrder α] (l : List α) :
    (sortAndDedup l).Sorted (· < ·) :=
  sorted_lt_dedupConsecutive (List.sorted_insertionSort (· ≤ ·) l)

theorem sortAndDedup_eq_of_mem_iff {α : Type} [LinearOrder α] {l₁ l₂ : List α}
    (h : ∀ x, x ∈ l₁ ↔ x ∈ l₂) : sortAndDedup l₁ = sortAndDedup l₂ :=
  eq_of_sorted_lt_of_mem_iff _ _ (sorted_lt_sortAndDedup l₁) (sorted_lt_sortAndDedup l₂)
    (fun x => by rw [mem_sortAndDedup, mem_sortAndDedup]; exact h x)

theorem sortAndDedup_eq_self {α : Type} [LinearOrder α] {l : List α} (h : l.Sorted (· < ·)) :
    sortAndDedup l = l :=
  eq_of_sorted_lt_of_mem_iff _ _ (sorted_lt_sortAndDedup l) h
    (fun _ => mem_sortAndDedup)

theorem processTokens_valid_singleton (is_url : Str → Bool) {id : Str}
    (h : validate_wallpaper_id id = true) :
    processTokens is_url [id] = [id] := by
  unfold processTokens
  rw [List.map_singleton, normalize_token_of_valid_id is_url h]
  rw [List.flatMap_singleton, to_array_of_valid_id h]
  simp [List.filter, h]

theorem filter_length_lt {α : Type} {p : α → Bool} :
    ∀ {l : List α} {a : α}, a ∈ l → p a = false → (l.filter p).length < l.length
  | b :: l, a, hmem, hpa => by
    rcases List.mem_cons.mp hmem with hab | hal
    · subst hab
      rw [List.filter_cons_of_neg (by simp [hpa])]
      exact Nat.lt_succ_of_le (List.length_filter_le p l)
    · by_cases hpb : p b = true
      · rw [List.filter_cons_of_pos hpb]
        exact Nat.succ_lt_succ (filter_length_lt hal hpa)
      · rw [List.filter_cons_of_neg (by simp [Bool.not_eq_true] at hpb ⊢; exact hpb)]
        exact Nat.lt_succ_of_lt (filter_length_lt hal hpa)

/-- C6: `add` is idempotent — for every tracked set and every valid ID,
adding the ID twice yields the same tracked set (and backing file) as
adding it once. -/
theorem add_idempotent (is_url : Str → Bool) (st : ListStoreState) (id : Str)
    (h : validate_wallpaper_id id = true) :
    add is_url (add is_url st [id]) [id] = add is_url st [id] := by
  have hproc := processTokens_valid_singleton is_url h
  simp only [add, hproc]
  have hid : id ∈ sortAndDedup (st.wallpapers ++ [id]) :=
    mem_sortAndDedup.mpr (by simp)
  have key : sortAndDedup (sortAndDedup (st.wallpapers ++ [id]) ++ [id])
      = sortAndDedup (st.wallpapers ++ [id]) := by
    refine eq_of_sorted_lt_of_mem_iff _ _ (sorted_lt_sortAndDedup _)
      (sorted_lt_sortAndDedup _) (fun x => ?_)
    rw [mem_sortAndDedup, List.mem_append]
    constructor
    · rintro (hx | hx)
      · exact hx
      · simp only [List.mem_singleton] at hx
        exact hx ▸ hid
    · exact Or.inl
  rw [key]

/-- Closed instance of `add_idempotent` at a concrete state and ID. -/
theorem add_idempotent_witness :
    validate_wallpaper_id "abc123".data = true ∧
      add (fun _ => false) (add (fun _ => false) ⟨["zzzzzz".data], ["zzzzzz".data]⟩
          ["abc123".data]) ["abc123".data]
        = add (fun _ => false) ⟨["zzzzzz".data], ["zzzzzz".data]⟩ ["abc123".data] :=
  ⟨by decide, add_idempotent (fun _ => false) ⟨["zzzzzz".data], ["zzzzzz".data]⟩
    "abc123".data (by decide)⟩

/-- C7: `add` then `remove` of the same valid ID restores a well-formed
tracked set (strictly sorted, i.e. sorted and duplicate-free, as the
Wallpaper List invariant requires) that did not contain the ID, and the
backing file is rewritten with the restored set. -/
theorem add_remove_roundtrip (is_url : Str → Bool) (s file0 : List Str) (id : Str)
    (hs : s.Sorted (· < ·)) (h : validate_wallpaper_id id = true) (hid : id ∉ s) :
    remove is_url (add is_url ⟨s, file0⟩ [id]) [id] = Except.ok ⟨s, s⟩ := by
  have hproc := processTokens_valid_singleton is_url h
  have hadd : add is_url ⟨s, file0⟩ [id]
      = ⟨sortAndDedup (s ++ [id]), sortAndDedup (s ++ [id])⟩ := by
    simp only [add, hproc]
  have hidA : id ∈ sortAndDedup (s ++ [id]) := mem_sortAndDedup.mpr (by simp)
  have hpred : ∀ x : Str, (!(List.contains [id] x)) = true ↔ x ≠ id := by
    intro x
    simp [List.contains]
  have hfilter : (sortAndDedup (s ++ [id])).filter (fun w => !(List.contains [id] w)) = s := by
    refine eq_of_sorted_lt_of_mem_iff _ _
      (List.Pairwise.sublist (List.filter_sublist _) (sorted_lt_sortAndDedup _)) hs
      (fun x => ?_)
    rw [List.mem_filter, mem_sortAndDedup, List.mem_append, hpred]
    constructor
    · rintro ⟨hx1 | hx1, hx2⟩
      · exact hx1
      · simp only [List.mem_singleton] at hx1
        exact absurd hx1 hx2
    · intro hx
      exact ⟨Or.inl hx, fun hxe => hid (hxe ▸ hx)⟩
  have hlen : s.length < (sortAndDedup (s ++ [id])).length := by
    have := filter_length_lt (p := fun w => !(List.contains [id] w)) hidA
      (by simp [List.contains])
    rw [hfilter] at this
    exact this
  rw [hadd]
  simp only [remove, hproc, List.isEmpty_cons, hfilter]
  rw [if_neg (by simp)]
  rw [if_neg (Nat.sub_ne_zero_of_lt hlen)]

/-- Closed instance of `add_remove_roundtrip` at a concrete state and ID. -/
theorem add_remove_roundtrip_witness :
    (["aaaaaa".data, "zzzzzz".data] : List Str).Sorted (· < ·) ∧
      validate_wallpaper_id "abc123".data = true ∧
      "abc123".data ∉ (["aaaaaa".data, "zzzzzz".data] : List Str) ∧
      remove (fun _ => false)
          (add (fun _ => false) ⟨["aaaaaa".data, "zzzzzz".data], []⟩ ["abc123".data])
          ["abc123".data]
        = Except.ok ⟨["aaaaaa".data, "zzzzzz".data], ["aaaaaa".data, "zzzzzz".data]⟩ :=
  ⟨by decide, by decide, by decide,
    add_remove_roundtrip (fun _ => false) ["aaaaaa".data, "zzzzzz".data] [] "abc123".data
      (by decide) (by decide) (by decide)⟩

/-- C8 counterexample: `remove` with only invalid tokens fails with
`No valid wallpaper IDs provided`, so invalid tokens are not always
non-fatal for the list-mutating operations. -/
theorem remove_all_invalid_tokens_errors :
    remove (fun _ => false) ⟨["abc123".data], ["abc123".data]⟩ ["??".data]
      = Except.error "No valid wallpaper IDs provided" := by
  rfl

/-- C8 (amended): both `add` and `remove` drop invalid tokens; `add` never
fails because of them (all tokens invalid leaves the tracked set unchanged
up to sorting and deduplication), and `remove` succeeds whenever at least
one valid token remains, but returns the error `No valid wallpaper IDs
provided` when every supplied token is invalid. -/
theorem invalid_tokens_dropped (is_url : Str → Bool) (st : ListStoreState)
    (tokens : List Str) :
    (∀ x ∈ processTokens is_url tokens, validate_wallpaper_id x = true)
    ∧ (processTokens is_url tokens = [] →
        add is_url st tokens = ⟨sortAndDedup st.wallpapers, sortAndDedup st.wallpapers⟩
        ∧ remove is_url st tokens = Except.error "No valid wallpaper IDs provided")
    ∧ (processTokens is_url tokens ≠ [] →
        ∃ st2, remove is_url st tokens = Except.ok st2) := by
  refine ⟨fun x hx => List.of_mem_filter hx, fun he => ⟨?_, ?_⟩, fun hne => ?_⟩
  · simp only [add, he, List.append_nil]
  · simp only [remove, he, List.isEmpty_nil, if_pos]
  · simp only [remove, List.isEmpty_eq_true, if_neg hne]
    by_cases hz : st.wallpapers.length
        - (st.wallpapers.filter (fun w => !(List.contains (processTokens is_url tokens) w))).length
        = 0
    · exact ⟨_, by rw [if_pos hz]⟩
    · exact ⟨_, by rw [if_neg hz]⟩

/-- Closed instance of `invalid_tokens_dropped`: with every token invalid,
`add` leaves the tracked set unchanged and `remove` errors. -/
theorem invalid_tokens_dropped_witness :
    add (fun _ => false) ⟨["abc123".data], ["abc123".data]⟩ ["!!".data]
        = ⟨["abc123".data], ["abc123".data]⟩
      ∧ remove (fun _ => false) ⟨["abc123".data], ["abc123".data]⟩ ["!!".data]
        = Except.error "No valid wallpaper IDs provided" := by
  have h := (invalid_tokens_dropped (fun _ => false)
    ⟨["abc123".data], ["abc123".data]⟩ ["!!".data]).2.1 (by decide)
  exact ⟨by rw [h.1]; decide, h.2⟩

/-- C1: the planning loop classifies every tracked ID by the four spec
rules — no inventory file means download; file present with integrity
disabled means skip; file present with integrity enabled but no ledger
entry, or a ledger entry whose recorded path differs from the inventory
path, means download; file present with a path-matching ledger entry means
verify. (`sync` builds the ledger map whenever integrity is on, so it is
passed as `some lock_map`.) -/
theorem classify_spec_rules (integrity : Bool) (lock_map : Str → Option (Str × Str))
    (file_map : Str → Option Str) (w : Str) :
    (file_map w = none → classify integrity (some lock_map) file_map w = SyncAction.download)
    ∧ (∀ p, file_map w = some p → integrity = false →
        classify integrity (some lock_map) file_map w = SyncAction.skip)
    ∧ (∀ p, file_map w = some p → integrity = true → lock_map w = none →
        classify integrity (some lock_map) file_map w = SyncAction.download)
    ∧ (∀ p loc sha, file_map w = some p → integrity = true → lock_map w = some (loc, sha) →
        loc ≠ p → classify integrity (some lock_map) file_map w = SyncAction.download)
    ∧ (∀ p loc sha, file_map w = some p → integrity = true → lock_map w = some (loc, sha) →
        loc = p → classify integrity (some lock_map) file_map w = SyncAction.verify) := by
  refine ⟨fun h => ?_, fun p hp hi => ?_, fun p hp hi hl => ?_,
    fun p loc sha hp hi hl hne => ?_, fun p loc sha hp hi hl he => ?_⟩
  · simp [classify, h]
  · simp [classify, hp, hi]
  · simp [classify, hp, hi, hl]
  · simp [classify, hp, hi, hl, hne]
  · simp [classify, hp, hi, hl, he]

/-- Closed instance of `classify_spec_rules` exercising all five rules. -/
theorem classify_spec_rules_witness :
    classify true (some fun _ => none) exFileMap "zzzzzz".data = SyncAction.download
    ∧ classify false (some fun _ => none) exFileMap "abc123".data = SyncAction.skip
    ∧ classify true (some fun _ => none) exFileMap "abc123".data = SyncAction.download
    ∧ classify true (some fun _ => some ("/old/abc123.png".data, "cafe".data))
        exFileMap "abc123".data = SyncAction.download
    ∧ classify true (some fun _ => some ("/save/abc123.png".data, "cafe".data))
        exFileMap "abc123".data = SyncAction.verify :=
  ⟨(classify_spec_rules true _ exFileMap _).1 (by decide),
    (classify_spec_rules false _ exFileMap _).2.1 "/save/abc123.png".data (by decide) rfl,
    (classify_spec_rules true _ exFileMap _).2.2.1 "/save/abc123.png".data (by decide) rfl rfl,
    (classify_spec_rules true _ exFileMap _).2.2.2.1 "/save/abc123.png".data
      "/old/abc123.png".data "cafe".data (by decide) rfl rfl (by decide),
    (classify_spec_rules true _ exFileMap _).2.2.2.2 "/save/abc123.png".data
      "/save/abc123.png".data "cafe".data (by decide) rfl rfl rfl⟩

/-- The planning fold is `classify` pointwise: `needs_download` collects,
in order, exactly the tracked IDs classified `download`, and
`integrity_checks` collects exactly those classified `verify`, paired with
their inventory path and recorded hash. -/
theorem reconcile_eq_filter_classify (integrity : Bool)
    (lock_file_map : Option (Str → Option (Str × Str))) (file_map : Str → Option Str) :
    ∀ (wallpapers : List Str) (acc : List Str × List (Str × Str × Str)),
      wallpapers.foldl
        (fun acc wallpaper =>
          match classify integrity lock_file_map file_map wallpaper with
          | SyncAction.download => (acc.1 ++ [wallpaper], acc.2)
          | SyncAction.skip => acc
          | SyncAction.verify =>
            ((acc.1, acc.2 ++ [(wallpaper, (file_map wallpaper).getD [],
              (((lock_file_map.getD (fun _ => none)) wallpaper).getD ([], [])).2)])))
        acc
      = (acc.1 ++ wallpapers.filter
            (fun w => classify integrity lock_file_map file_map w = SyncAction.download),
         acc.2 ++ (wallpapers.filter
            (fun w => classify integrity lock_file_map file_map w = SyncAction.verify)).map
            (fun w => (w, (file_map w).getD [],
              (((lock_file_map.getD (fun _ => none)) w).getD ([], [])).2)))
  | [], acc => by simp
  | w :: ws, acc => by
    rcases hcw : classify integrity lock_file_map file_map w with _ | _ | _
    all_goals
      simp only [List.foldl_cons, hcw,
        reconcile_eq_filter_classify integrity lock_file_map file_map ws,
        List.filter_cons]
    · simp [hcw]
    · simp [hcw]
    · simp [hcw]

/-- Restatement of `reconcile_eq_filter_classify` for `reconcile` itself. -/
theorem reconcile_spec (integrity : Bool)
    (lock_file_map : Option (Str → Option (Str × Str))) (file_map : Str → Option Str)
    (wallpapers : List Str) :
    reconcile integrity lock_file_map file_map wallpapers
      = (wallpapers.filter
            (fun w => classify integrity lock_file_map file_map w = SyncAction.download),
         (wallpapers.filter
            (fun w => classify integrity lock_file_map file_map w = SyncAction.verify)).map
            (fun w => (w, (file_map w).getD [],
              (((lock_file_map.getD (fun _ => none)) w).getD ([], [])).2))) := by
  unfold reconcile
  rw [reconcile_eq_filter_classify]
  simp

/-- C3: an ID is promoted from the verify phase to the download set exactly
when its freshly computed hash differs from the ledger's recorded hash or
the hash computation fails; a matching hash keeps it out (counted as a
skip). -/
theorem verify_phase_download_set :
    (∀ expected h, verify_should_download expected (Except.ok h) = true ↔ h ≠ expected)
    ∧ (∀ expected e, verify_should_download expected (Except.error e) = true)
    ∧ (∀ (hashOf : Str → Except String Str) checks id,
        id ∈ verify_phase_downloads hashOf checks ↔
          ∃ path expected, (id, path, expected) ∈ checks ∧
            verify_should_download expected (hashOf path) = true) := by
  refine ⟨fun expected h => ?_, fun expected e => rfl, fun hashOf checks id => ?_⟩
  · simp [verify_should_download]
  · simp only [verify_phase_downloads, List.mem_map, List.mem_filter]
    constructor
    · rintro ⟨⟨i, path, expected⟩, ⟨hmem, hcond⟩, hfst⟩
      obtain rfl : i = id := hfst
      exact ⟨path, expected, hmem, hcond⟩
    · rintro ⟨path, expected, hmem, hcond⟩
      exact ⟨(id, path, expected), ⟨hmem, hcond⟩, rfl⟩

/-- C2 counterexample: in the 3-item batch with one permanent failure the
code reports `completed = 3` (it counts every finished task, errored ones
included), not `completed = 2`; the error count is 1, the other two items
are downloaded, and the run still returns `Ok`. -/
theorem sync_summary_completed_counterexample :
    (download_phase exOutcome exBatch).1 = (3, 1, 3)
    ∧ (download_phase exOutcome exBatch).1.1 ≠ 2
    ∧ (download_phase exOutcome exBatch).2.1 = ["aaaaaa".data, "cccccc".data]
    ∧ (download_phase exOutcome exBatch).2.2 = Except.ok () := by
  refine ⟨by decide, by decide, by decide, rfl⟩

/-- C2 (amended): a 3-item batch where exactly the middle item's fetch
fails permanently completes without aborting (`sync` returns `Ok`), the
other two items are downloaded, and the summary reports 3 completed — the
completed count includes the errored task — with 1 error. -/
theorem sync_batch_partial_failure (outcome : Str → TaskResult) (a b c : Str) (m : String)
    (ha : outcome a = TaskResult.success) (hb : outcome b = TaskResult.taskError m)
    (hc : outcome c = TaskResult.success) :
    download_phase outcome [a, b, c] = ((3, 1, 3), [a, c], Except.ok ()) := by
  simp [download_phase, count_outcomes, TaskResult.isSuccess, ha, hb, hc]

/-- Closed instance of `sync_batch_partial_failure`. -/
theorem sync_batch_partial_failure_witness :
    download_phase
        (fun w => if w = "eeeeee".data then TaskResult.taskError "HTTP 500"
                  else TaskResult.success)
        ["dddddd".data, "eeeeee".data, "ffffff".data]
      = ((3, 1, 3), ["dddddd".data, "ffffff".data], Except.ok ()) :=
  sync_batch_partial_failure _ _ _ _ "HTTP 500" (by decide) (by decide) (by decide)

/-- C4: with `MAX_RETRY = 3`, (a) two transient failures followed by a
success return that success after `2^0 + 2^1 = 3` seconds of backoff;
(b) the third attempt's failure is returned as-is with no further retry
and no further backoff (still 3 seconds total); (c) the result depends
only on the first `MAX_RETRY = 3` attempt outcomes, so at most 3 attempts
are made. -/
theorem retry_backoff_spec (attempts : Nat → Except String String) :
    (∀ e0 e1 c, attempts 0 = Except.error e0 → attempts 1 = Except.error e1 →
      attempts 2 = Except.ok c →
      retry_get_curl_content attempts = (some (Except.ok c), 3))
    ∧ (∀ e0 e1 e2, attempts 0 = Except.error e0 → attempts 1 = Except.error e1 →
      attempts 2 = Except.error e2 →
      retry_get_curl_content attempts = (some (Except.error e2), 3))
    ∧ (∀ attempts2 : Nat → Except String String,
        (∀ i, i < MAX_RETRY → attempts i = attempts2 i) →
        retry_get_curl_content attempts = retry_get_curl_content attempts2) := by
  refine ⟨fun e0 e1 c h0 h1 h2 => ?_, fun e0 e1 e2 h0 h1 h2 => ?_, fun attempts2 h => ?_⟩
  · simp [retry_get_curl_content, MAX_RETRY, retryLoop, h0, h1, h2]
  · simp [retry_get_curl_content, MAX_RETRY, retryLoop, h0, h1, h2]
  · have h0 := h 0 (by norm_num [MAX_RETRY])
    have h1 := h 1 (by norm_num [MAX_RETRY])
    have h2 := h 2 (by norm_num [MAX_RETRY])
    simp only [retry_get_curl_content, MAX_RETRY, retryLoop, h0, h1, h2]

/-- Closed instance of `retry_backoff_spec`: fail twice, succeed on the
third attempt, total backoff 3 seconds. -/
theorem retry_backoff_spec_witness :
    retry_get_curl_content
        (fun i => if i < 2 then Except.error "connection reset" else Except.ok "payload")
      = (some (Except.ok "payload"), 3) :=
  (retry_backoff_spec _).1 "connection reset" "connection reset" "payload" rfl rfl rfl

theorem retryLoop_returns_within_loop (attempts : Nat → Except String String)
    (maxRetry : Nat) :
    ∀ (fuel retry_count acc : Nat), retry_count + fuel = maxRetry → 0 < fuel →
      (retryLoop attempts maxRetry retry_count acc fuel).1 ≠ none
  | 0, _, _, _, hf => absurd hf (lt_irrefl 0)
  | fuel + 1, retry_count, acc, hsum, _ => by
    rw [retryLoop]
    cases hatt : attempts retry_count with
    | ok content => simp
    | error e =>
      dsimp only
      by_cases hlt : retry_count + 1 < maxRetry
      · rw [if_pos hlt]
        exact retryLoop_returns_within_loop attempts maxRetry fuel (retry_count + 1)
          (acc + 2 ^ retry_count) (by omega) (by omega)
      · rw [if_neg hlt]
        simp

/-- C10: for any attempt outcomes and any attempt cap of at least 1 — in
particular `MAX_RETRY = 3` — every loop iteration of
`retry_get_curl_content` either returns or continues, and on the last
iteration both match arms return, so the `unreachable!()` after the loop
(the `none` result) is never executed. -/
theorem retry_unreachable_never_hit (attempts : Nat → Except String String)
    (maxRetry : Nat) (h : 1 ≤ maxRetry) :
    (retryLoop attempts maxRetry 0 0 maxRetry).1 ≠ none
    ∧ (retry_get_curl_content attempts).1 ≠ none :=
  ⟨retryLoop_returns_within_loop attempts maxRetry maxRetry 0 0 (by omega) (by omega),
    retryLoop_returns_within_loop attempts MAX_RETRY MAX_RETRY 0 0 rfl (by norm_num [MAX_RETRY])⟩

/-- Closed instance of `retry_unreachable_never_hit` with every attempt
failing at the configured cap. -/
theorem retry_unreachable_never_hit_witness :
    (1 ≤ MAX_RETRY)
    ∧ (retry_get_curl_content (fun _ => Except.error "HTTP 502")).1 ≠ none :=
  ⟨by norm_num [MAX_RETRY],
    (retry_unreachable_never_hit (fun _ => Except.error "HTTP 502") MAX_RETRY
      (by norm_num [MAX_RETRY])).2⟩

/-- C9 counterexample: when the image format cannot be detected,
`download_image` fails with `Failed to detect image format` — it does not
fall back to writing `<id>.jpg` (the path `/save/abc123.jpg`). -/
theorem download_image_undetected_fails :
    download_image (Except.ok ()) true none true "abc123".data "/save".data
      = Except.error "Failed to detect image format"
    ∧ download_image (Except.ok ()) true none true "abc123".data "/save".data
        ≠ Except.ok "/save/abc123.jpg".data := by
  exact ⟨rfl, fun h => Except.noConfusion h⟩

/-- C9 (amended): the saved file's extension is determined from the image
format detected from the downloaded bytes, with `jpg` used for detected
formats missing from the extension table (e.g. AVIF); when the format
cannot be detected (or the bytes do not decode) the download fails with an
error instead of writing `<id>.jpg`. -/
theorem download_image_extension_spec (id save_location : Str) :
    (∀ img_format, download_image (Except.ok ()) true (some img_format) true id save_location
      = Except.ok (save_location ++ ('/' :: id) ++ ('.' :: get_img_extension img_format)))
    ∧ get_img_extension ImageFormat.Avif = "jpg".data
    ∧ download_image (Except.ok ()) true none true id save_location
      = Except.error "Failed to detect image format"
    ∧ download_image (Except.ok ()) false none true id save_location
      = Except.error "Failed to decode image" := by
  exact ⟨fun img_format => rfl, rfl, rfl, rfl⟩

end RustPaper
